import Mathlib

/-!
Shallow embedding of the chess rules engine in `src/chess.py`
(classes `Piece` and `ChessBoard`), together with theorems settling the
frozen claims about its specification.

Conventions of the embedding:
* Python `int` coordinates become `Int`; every bounds check of the source
  (`0 <= row < 8 and 0 <= col < 8`) is translated explicitly.
* The mutable `self.board` (an 8x8 list of optional `Piece` objects)
  becomes a total function `Fin 8 → Fin 8 → Option Piece`; in-place
  mutation becomes explicit state passing.
* The Python floor division `//` becomes `Int.fdiv`.
* Early `return False` chains become short-circuiting `&&` chains with the
  same value.
-/

namespace Chess

/-- Mirrors `class Color(Enum)` (src/chess.py lines 16-18). -/
inductive Color where
  | WHITE
  | BLACK
deriving DecidableEq

/-- Mirrors `class PieceType(Enum)` (src/chess.py lines 20-26). -/
inductive PieceType where
  | PAWN
  | ROOK
  | KNIGHT
  | BISHOP
  | QUEEN
  | KING
deriving DecidableEq

/-- Mirrors `class Piece` (src/chess.py lines 28-32): color, piece type and
the `has_moved` flag (initialised to `False` by `__init__`). -/
structure Piece where
  color : Color
  piece_type : PieceType
  has_moved : Bool
deriving DecidableEq

/-- The unicode symbol table of `Piece.__str__` (src/chess.py lines 34-49). -/
def piece_str (p : Piece) : String :=
  match p.color, p.piece_type with
  | Color.WHITE, PieceType.PAWN => "♙"
  | Color.WHITE, PieceType.ROOK => "♖"
  | Color.WHITE, PieceType.KNIGHT => "♘"
  | Color.WHITE, PieceType.BISHOP => "♗"
  | Color.WHITE, PieceType.QUEEN => "♕"
  | Color.WHITE, PieceType.KING => "♔"
  | Color.BLACK, PieceType.PAWN => "♟"
  | Color.BLACK, PieceType.ROOK => "♜"
  | Color.BLACK, PieceType.KNIGHT => "♞"
  | Color.BLACK, PieceType.BISHOP => "♝"
  | Color.BLACK, PieceType.QUEEN => "♛"
  | Color.BLACK, PieceType.KING => "♚"

/-- The 8x8 grid `self.board`: a total map from in-range coordinates to an
optional piece (src/chess.py line 53). -/
def Board : Type := Fin 8 → Fin 8 → Option Piece

/-- One entry of `self.move_history`: the dict built in `make_move`
(src/chess.py lines 341-346).  `piece` and `captured` store the `str()`
rendering exactly as the source does. -/
structure MoveRecord where
  fromSq : Int × Int
  toSq : Int × Int
  piece : String
  captured : Option String
deriving DecidableEq

/-- The state held by `class ChessBoard` (src/chess.py lines 51-57):
board grid, `current_turn`, `en_passant_target` and `move_history`. -/
structure ChessBoard where
  board : Board
  current_turn : Color
  en_passant_target : Option (Int × Int)
  move_history : List MoveRecord

/-- `piece_order` used by `_setup_initial_position` (src/chess.py lines 67-68). -/
def piece_order : List PieceType :=
  [PieceType.ROOK, PieceType.KNIGHT, PieceType.BISHOP, PieceType.QUEEN,
   PieceType.KING, PieceType.BISHOP, PieceType.KNIGHT, PieceType.ROOK]

/-- The initial position set up by `_setup_initial_position`
(src/chess.py lines 59-72): black pawns on row 1, white pawns on row 6,
black back rank on row 0, white back rank on row 7. -/
def initial_board : Board := fun r c =>
  if r.val = 1 then some ⟨Color.BLACK, PieceType.PAWN, false⟩
  else if r.val = 6 then some ⟨Color.WHITE, PieceType.PAWN, false⟩
  else if r.val = 0 then some ⟨Color.BLACK, piece_order.getD c.val PieceType.ROOK, false⟩
  else if r.val = 7 then some ⟨Color.WHITE, piece_order.getD c.val PieceType.ROOK, false⟩
  else none

/-- A fresh `ChessBoard()` (src/chess.py lines 52-57). -/
def initial_state : ChessBoard :=
  { board := initial_board
    current_turn := Color.WHITE
    en_passant_target := none
    move_history := [] }

/-- The in-range test `0 <= row < 8 and 0 <= col < 8` shared by
`get_piece`, `set_piece` and `is_valid_position`. -/
def in_range (row col : Int) : Prop :=
  0 ≤ row ∧ row < 8 ∧ 0 ≤ col ∧ col < 8

instance (row col : Int) : Decidable (in_range row col) := by
  unfold in_range
  infer_instance

/-- Mirrors `ChessBoard.get_piece` (src/chess.py lines 74-78): the piece at
the position when in range, `None` otherwise. -/
def get_piece (b : Board) (row col : Int) : Option Piece :=
  if h : in_range row col then
    b ⟨row.toNat, by simp only [in_range] at h; omega⟩
      ⟨col.toNat, by simp only [in_range] at h; omega⟩
  else none

/-- Pointwise update of the grid at an in-range square. -/
def board_set (b : Board) (i j : Fin 8) (p : Option Piece) : Board :=
  fun i' j' => if i' = i ∧ j' = j then p else b i' j'

/-- Mirrors `ChessBoard.set_piece` (src/chess.py lines 80-83): writes the
square when in range and does nothing otherwise. -/
def set_piece (b : Board) (row col : Int) (p : Option Piece) : Board :=
  if h : in_range row col then
    board_set b ⟨row.toNat, by simp only [in_range] at h; omega⟩
      ⟨col.toNat, by simp only [in_range] at h; omega⟩ p
  else b

/-- Mirrors `ChessBoard.is_valid_position` (src/chess.py lines 85-87). -/
def is_valid_position (row col : Int) : Bool :=
  decide (in_range row col)

/-- Mirrors `ChessBoard.is_empty` (src/chess.py lines 89-91): in range and
holding no piece. -/
def is_empty (b : Board) (row col : Int) : Bool :=
  is_valid_position row col && decide (get_piece b row col = none)

/-- The pawn `direction` computed in `_is_valid_pawn_move`
(src/chess.py line 182): `-1` for White, `1` for Black. -/
def pawn_direction (c : Color) : Int :=
  if c = Color.WHITE then -1 else 1

/-- Mirrors `ChessBoard._is_valid_pawn_move` (src/chess.py lines 179-202).
The source returns `True` from the forward block or from the diagonal
block and `False` at the end, which is the disjunction below.  The branch
for an empty `from` square is unreachable from the engine (the caller has
already checked a piece is present). -/
def is_valid_pawn_move (s : ChessBoard) (fr fc tr tc : Int) : Bool :=
  match get_piece s.board fr fc with
  | none => false
  | some piece =>
    let direction := pawn_direction piece.color
    let start_row : Int := if piece.color = Color.WHITE then 6 else 1
    (decide (fc = tc) && is_empty s.board tr tc &&
      (decide (tr = fr + direction) ||
       (decide (fr = start_row) && decide (tr = fr + 2 * direction)))) ||
    (decide ((tc - fc).natAbs = 1) && decide (tr = fr + direction) &&
      ((match get_piece s.board tr tc with
        | some target => decide (¬ target.color = piece.color)
        | none => false) ||
       decide (s.en_passant_target = some (tr, tc))))

/-- One iteration of the `while` loop of `_is_path_clear`
(src/chess.py lines 272-277), with a fuel argument making the recursion
structural.  The loop runs at most 9 times before returning: every
iteration that continues has passed `is_empty`, hence lies on the board,
and a coordinate advanced by a nonzero step takes at most 8 on-board
values; so with fuel 32 the fuel-exhausted branch is unreachable. -/
def path_clear_loop (b : Board) (rs cs tr tc : Int) : Int → Int → Nat → Bool
  | _, _, 0 => false
  | cr, cc, fuel + 1 =>
    if decide (cr = tr) && decide (cc = tc) then true
    else if !(is_empty b cr cc) then false
    else path_clear_loop b rs cs tr tc (cr + rs) (cc + cs) fuel

/-- Mirrors `ChessBoard._is_path_clear` (src/chess.py lines 267-279):
walk by the unit step from `from` (exclusive) toward `to` (exclusive),
requiring every stepped-over square to be empty. -/
def is_path_clear (b : Board) (fr fc tr tc : Int) : Bool :=
  let rs : Int := if tr = fr then 0 else if tr > fr then 1 else -1
  let cs : Int := if tc = fc then 0 else if tc > fc then 1 else -1
  path_clear_loop b rs cs tr tc (fr + rs) (fc + cs) 32

/-- Mirrors `ChessBoard._is_valid_rook_move` (src/chess.py lines 204-208). -/
def is_valid_rook_move (b : Board) (fr fc tr tc : Int) : Bool :=
  (decide (fr = tr) || decide (fc = tc)) && is_path_clear b fr fc tr tc

/-- Mirrors `ChessBoard._is_valid_knight_move` (src/chess.py lines 210-214). -/
def is_valid_knight_move (fr fc tr tc : Int) : Bool :=
  (decide ((tr - fr).natAbs = 2) && decide ((tc - fc).natAbs = 1)) ||
  (decide ((tr - fr).natAbs = 1) && decide ((tc - fc).natAbs = 2))

/-- Mirrors `ChessBoard._is_valid_bishop_move` (src/chess.py lines 216-220). -/
def is_valid_bishop_move (b : Board) (fr fc tr tc : Int) : Bool :=
  decide ((tr - fr).natAbs = (tc - fc).natAbs) && is_path_clear b fr fc tr tc

/-- Mirrors `ChessBoard._is_valid_queen_move` (src/chess.py lines 222-225). -/
def is_valid_queen_move (b : Board) (fr fc tr tc : Int) : Bool :=
  is_valid_rook_move b fr fc tr tc || is_valid_bishop_move b fr fc tr tc

/-- Mirrors `ChessBoard._is_valid_castling` (src/chess.py lines 239-265).
Note two facts about the source preserved here: the destination row
`to_row` is never inspected, and the rook found on the corner square is
checked for its piece type and `has_moved` flag but not for its color. -/
def is_valid_castling (b : Board) (fr fc tr tc : Int) : Bool :=
  match get_piece b fr fc with
  | none => false
  | some piece =>
    decide (piece.piece_type = PieceType.KING) && !piece.has_moved &&
    (!decide (piece.color = Color.WHITE) || decide (fr = 7)) &&
    (!decide (piece.color = Color.BLACK) || decide (fr = 0)) &&
    ((decide (tc = fc + 2) &&
      (match get_piece b fr 7 with
       | some rook =>
         decide (rook.piece_type = PieceType.ROOK) && !rook.has_moved &&
         is_empty b fr (fc + 1) && is_empty b fr (fc + 2)
       | none => false)) ||
     (decide (tc = fc - 2) &&
      (match get_piece b fr 0 with
       | some rook =>
         decide (rook.piece_type = PieceType.ROOK) && !rook.has_moved &&
         is_empty b fr (fc - 1) && is_empty b fr (fc - 2) && is_empty b fr (fc - 3)
       | none => false)))

/-- Mirrors `ChessBoard._is_valid_king_move` (src/chess.py lines 227-237):
a one-square step in any direction, or the castling shape. -/
def is_valid_king_move (b : Board) (fr fc tr tc : Int) : Bool :=
  (decide ((tr - fr).natAbs ≤ 1) && decide ((tc - fc).natAbs ≤ 1)) ||
  is_valid_castling b fr fc tr tc

/-- Mirrors `ChessBoard._is_valid_move_internal` (src/chess.py lines
148-177): a piece at `from`, not the zero move, no same-color capture,
then the per-kind movement rule. -/
def is_valid_move_internal (s : ChessBoard) (fr fc tr tc : Int) : Bool :=
  match get_piece s.board fr fc with
  | none => false
  | some piece =>
    !(decide (fr = tr) && decide (fc = tc)) &&
    !(match get_piece s.board tr tc with
      | some target => decide (target.color = piece.color)
      | none => false) &&
    (match piece.piece_type with
     | PieceType.PAWN => is_valid_pawn_move s fr fc tr tc
     | PieceType.ROOK => is_valid_rook_move s.board fr fc tr tc
     | PieceType.KNIGHT => is_valid_knight_move fr fc tr tc
     | PieceType.BISHOP => is_valid_bishop_move s.board fr fc tr tc
     | PieceType.QUEEN => is_valid_queen_move s.board fr fc tr tc
     | PieceType.KING => is_valid_king_move s.board fr fc tr tc)

/-- Mirrors `ChessBoard.can_attack_square` (src/chess.py lines 130-146) as
a pure function: the net effect of clearing the `from` square, querying
`_is_valid_move_internal` on the cleared state and restoring the square.
The state-threaded version below makes the restore explicit. -/
def can_attack_square (s : ChessBoard) (fr fc tr tc : Int) : Bool :=
  match get_piece s.board fr fc with
  | none => false
  | some _ =>
    is_valid_move_internal { s with board := set_piece s.board fr fc none } fr fc tr tc

/-- The 64 squares in the row-major order of the `for` loops of
`is_square_attacked` and `get_king_position`. -/
def squares8 : List (Int × Int) :=
  (List.range 8).flatMap fun (r : Nat) =>
    (List.range 8).map fun (c : Nat) => ((r : Int), (c : Int))

/-- Mirrors `ChessBoard.is_square_attacked` (src/chess.py lines 120-128):
scan all 64 squares and report the first piece of `by_color` that can
attack the target square. -/
def is_square_attacked (s : ChessBoard) (row col : Int) (by_color : Color) : Bool :=
  squares8.any fun q =>
    match get_piece s.board q.1 q.2 with
    | some piece => decide (piece.color = by_color) && can_attack_square s q.1 q.2 row col
    | none => false

/-- Mirrors `ChessBoard.get_king_position` (src/chess.py lines 103-110):
first square in row-major order holding the king of the color; the
`raise ValueError` of the source becomes `none`. -/
def get_king_position (b : Board) (color : Color) : Option (Int × Int) :=
  squares8.findSome? fun q =>
    match get_piece b q.1 q.2 with
    | some piece =>
      if piece.piece_type = PieceType.KING ∧ piece.color = color then some q else none
    | none => none

/-- Mirrors `ChessBoard.is_in_check` (src/chess.py lines 112-118): `false`
when no king is found (the `except ValueError` branch).  Note the source
passes the own color of the king (`color`, line 116) to `is_square_attacked`,
not the opposing color. -/
def is_in_check (s : ChessBoard) (color : Color) : Bool :=
  match get_king_position s.board color with
  | none => false
  | some q => is_square_attacked s q.1 q.2 color

/-- Mirrors `ChessBoard._make_move_internal` (src/chess.py lines 300-333).
The source mutates `piece.has_moved` in place while the same object still
sits on the `from` square, so the board used by the en-passant and
castling steps is modelled with the updated piece already written at
`from`; the final two `set_piece` calls move it to `to` and clear `from`.
The en-passant target becomes the floor-division midpoint after a pawn
move of two rows and `None` otherwise. -/
def make_move_internal (s : ChessBoard) (fr fc tr tc : Int) : ChessBoard :=
  match get_piece s.board fr fc with
  | none =>
    { s with
      board := set_piece (set_piece s.board tr tc none) fr fc none
      en_passant_target := none }
  | some piece =>
    let moved : Piece := { piece with has_moved := true }
    let b0 := set_piece s.board fr fc (some moved)
    let b1 :=
      if decide (piece.piece_type = PieceType.PAWN) &&
         decide (s.en_passant_target = some (tr, tc)) then
        set_piece b0 (tr + (if piece.color = Color.WHITE then 1 else -1)) tc none
      else b0
    let b2 :=
      if decide (piece.piece_type = PieceType.KING) &&
         decide ((tc - fc).natAbs = 2) then
        if decide (fc < tc) then
          set_piece (set_piece b1 fr 5 (get_piece b1 fr 7)) fr 7 none
        else
          set_piece (set_piece b1 fr 3 (get_piece b1 fr 0)) fr 0 none
      else b1
    let b3 := set_piece b2 tr tc (some moved)
    let b4 := set_piece b3 fr fc none
    { s with
      board := b4
      en_passant_target :=
        if decide (piece.piece_type = PieceType.PAWN) &&
           decide ((tr - fr).natAbs = 2) then
          some (Int.fdiv (tr + fr) 2, tc)
        else none }

/-- Mirrors `ChessBoard.is_valid_move` (src/chess.py lines 281-298): a
piece of the side to move exists at `from`, the movement rules accept the
move, and applying it to a duplicate of the state (the `copy.deepcopy`)
does not leave the mover in check. -/
def is_valid_move (s : ChessBoard) (fr fc tr tc : Int) : Bool :=
  match get_piece s.board fr fc with
  | none => false
  | some piece =>
    decide (piece.color = s.current_turn) &&
    is_valid_move_internal s fr fc tr tc &&
    !(is_in_check (make_move_internal s fr fc tr tc) s.current_turn)

/-- Mirrors `ChessBoard.make_move` (src/chess.py lines 335-354): validate,
record the move (with the `str()` renderings the source stores, computed
from the pre-move state), execute, append to the history and flip the
turn; on a failed validation return `false` with the state untouched. -/
def make_move (s : ChessBoard) (fr fc tr tc : Int) : Bool × ChessBoard :=
  if is_valid_move s fr fc tr tc then
    let record : MoveRecord :=
      { fromSq := (fr, fc)
        toSq := (tr, tc)
        piece := match get_piece s.board fr fc with
                 | some p => piece_str p
                 | none => "None"
        captured := (get_piece s.board tr tc).map piece_str }
    let s1 := make_move_internal s fr fc tr tc
    ( true,
      { s1 with
        move_history := s1.move_history ++ [record]
        current_turn := if s.current_turn = Color.WHITE then Color.BLACK else Color.WHITE } )
  else (false, s)

/-- State-threaded rendering of `ChessBoard.can_attack_square`
(src/chess.py lines 130-146), making the in-place clear and restore of
the `from` square explicit: the returned state is the state after the
restore on line 144. -/
def can_attack_square_st (s : ChessBoard) (fr fc tr tc : Int) : Bool × ChessBoard :=
  match get_piece s.board fr fc with
  | none => (false, s)
  | some _ =>
    let original := get_piece s.board fr fc
    let s1 : ChessBoard := { s with board := set_piece s.board fr fc none }
    let result := is_valid_move_internal s1 fr fc tr tc
    let s2 : ChessBoard := { s1 with board := set_piece s1.board fr fc original }
    (result, s2)

/-- State-threaded rendering of the scan loop of
`ChessBoard.is_square_attacked` (src/chess.py lines 122-128), threading
the state through each `can_attack_square` call exactly as the in-place
mutation does. -/
def is_square_attacked_loop (row col : Int) (by_color : Color) :
    ChessBoard → List (Int × Int) → Bool × ChessBoard
  | s, [] => (false, s)
  | s, q :: rest =>
    match get_piece s.board q.1 q.2 with
    | some piece =>
      if piece.color = by_color then
        let r1 := can_attack_square_st s q.1 q.2 row col
        if r1.1 then (true, r1.2)
        else is_square_attacked_loop row col by_color r1.2 rest
      else is_square_attacked_loop row col by_color s rest
    | none => is_square_attacked_loop row col by_color s rest

/-- State-threaded `ChessBoard.is_square_attacked`. -/
def is_square_attacked_st (s : ChessBoard) (row col : Int) (by_color : Color) :
    Bool × ChessBoard :=
  is_square_attacked_loop row col by_color s squares8

/-- State-threaded `ChessBoard.is_in_check`. -/
def is_in_check_st (s : ChessBoard) (color : Color) : Bool × ChessBoard :=
  match get_king_position s.board color with
  | none => (false, s)
  | some q => is_square_attacked_st s q.1 q.2 color

/-- State-threaded rendering of `ChessBoard.is_valid_move` (src/chess.py
lines 281-298): the speculative move runs on a duplicate (`temp`) whose
threaded state is discarded, and the state of the caller is returned. -/
def is_valid_move_st (s : ChessBoard) (fr fc tr tc : Int) : Bool × ChessBoard :=
  match get_piece s.board fr fc with
  | none => (false, s)
  | some piece =>
    if piece.color = s.current_turn then
      if is_valid_move_internal s fr fc tr tc then
        let temp := make_move_internal s fr fc tr tc
        let chk := is_in_check_st temp s.current_turn
        (!chk.1, s)
      else (false, s)
    else (false, s)

/-- White king that has not moved. -/
def wK : Piece := ⟨Color.WHITE, PieceType.KING, false⟩

/-- White rook that has not moved. -/
def wR : Piece := ⟨Color.WHITE, PieceType.ROOK, false⟩

/-- White pawn that has not moved. -/
def wP : Piece := ⟨Color.WHITE, PieceType.PAWN, false⟩

/-- Black queen that has not moved. -/
def bQ : Piece := ⟨Color.BLACK, PieceType.QUEEN, false⟩

/-- Black rook that has not moved. -/
def bR : Piece := ⟨Color.BLACK, PieceType.ROOK, false⟩

/-- Black knight that has not moved. -/
def bN : Piece := ⟨Color.BLACK, PieceType.KNIGHT, false⟩

/-- Black pawn that has not moved. -/
def bP : Piece := ⟨Color.BLACK, PieceType.PAWN, false⟩

/-- The check fixture of the spec and of
`test_chess.py::test_check_detection`: a White king alone at row 4, col 4
and a Black queen at row 4, col 0, all squares between them empty. -/
def check_fixture : ChessBoard :=
  { board := fun r c =>
      if r.val = 4 ∧ c.val = 4 then some wK
      else if r.val = 4 ∧ c.val = 0 then some bQ
      else none
    current_turn := Color.WHITE
    en_passant_target := none
    move_history := [] }

/-- A White pawn on its start square with a Black knight directly in front
of it on the intermediate square of the double step. -/
def pawn_jump_fixture : ChessBoard :=
  { board := fun r c =>
      if r.val = 6 ∧ c.val = 0 then some wP
      else if r.val = 5 ∧ c.val = 0 then some bN
      else none
    current_turn := Color.WHITE
    en_passant_target := none
    move_history := [] }

/-- Unmoved White king on e1 and unmoved White rook on h1 with the
kingside squares empty: a legal kingside castling position. -/
def castle_fixture : ChessBoard :=
  { board := fun r c =>
      if r.val = 7 ∧ c.val = 4 then some wK
      else if r.val = 7 ∧ c.val = 7 then some wR
      else none
    current_turn := Color.WHITE
    en_passant_target := none
    move_history := [] }

/-- Unmoved White king on e1 with an unmoved BLACK rook on h1. -/
def castle_enemy_rook_fixture : ChessBoard :=
  { board := fun r c =>
      if r.val = 7 ∧ c.val = 4 then some wK
      else if r.val = 7 ∧ c.val = 7 then some bR
      else none
    current_turn := Color.WHITE
    en_passant_target := none
    move_history := [] }

/-- A lone White king in the corner at row 0, col 0. -/
def corner_king_fixture : ChessBoard :=
  { board := fun r c =>
      if r.val = 0 ∧ c.val = 0 then some wK else none
    current_turn := Color.WHITE
    en_passant_target := none
    move_history := [] }

/-- A lone White pawn on its start square at row 6, col 0. -/
def lone_pawn_fixture : ChessBoard :=
  { board := fun r c =>
      if r.val = 6 ∧ c.val = 0 then some wP else none
    current_turn := Color.WHITE
    en_passant_target := none
    move_history := [] }

/-- An en-passant position: a Black pawn has just double-stepped to row 3,
col 3 (setting the en-passant target to row 2, col 3) and a White pawn
stands beside it at row 3, col 4. -/
def ep_fixture : ChessBoard :=
  { board := fun r c =>
      if r.val = 3 ∧ c.val = 4 then some wP
      else if r.val = 3 ∧ c.val = 3 then some bP
      else none
    current_turn := Color.WHITE
    en_passant_target := some (2, 3)
    move_history := [] }

lemma get_piece_out_of_range (b : Board) (row col : Int) (h : ¬ in_range row col) :
    get_piece b row col = none := dif_neg h

lemma set_piece_out_of_range (b : Board) (row col : Int) (p : Option Piece)
    (h : ¬ in_range row col) : set_piece b row col p = b := dif_neg h

lemma get_piece_some_in_range {b : Board} {row col : Int} {p : Piece}
    (h : get_piece b row col = some p) : in_range row col := by
  by_contra hc
  rw [get_piece_out_of_range b row col hc] at h
  exact Option.noConfusion h

lemma get_piece_nat (b : Board) (r c : Nat) (hr : r < 8) (hc : c < 8) :
    get_piece b (r : Int) (c : Int) = b ⟨r, hr⟩ ⟨c, hc⟩ := by
  unfold get_piece
  rw [dif_pos (by simp only [in_range]; omega)]
  congr 1

lemma get_set_same (b : Board) (row col : Int) (p : Option Piece)
    (h : in_range row col) :
    get_piece (set_piece b row col p) row col = p := by
  unfold get_piece set_piece board_set
  rw [dif_pos h, dif_pos h, if_pos ⟨rfl, rfl⟩]

lemma get_set_other (b : Board) (row col row' col' : Int) (p : Option Piece)
    (h : ¬ (row = row' ∧ col = col')) :
    get_piece (set_piece b row col p) row' col' = get_piece b row' col' := by
  by_cases hin : in_range row col
  · by_cases hin' : in_range row' col'
    · unfold get_piece set_piece board_set
      rw [dif_pos hin', dif_pos hin', dif_pos hin, if_neg]
      intro hfin
      obtain ⟨h1, h2⟩ := hfin
      simp only [Fin.mk.injEq] at h1 h2
      simp only [in_range] at hin hin'
      exact h ⟨by omega, by omega⟩
    · rw [get_piece_out_of_range _ _ _ hin', get_piece_out_of_range _ _ _ hin']
  · rw [set_piece_out_of_range _ _ _ _ hin]

lemma set_set_restore (b : Board) (row col : Int) (p : Option Piece)
    (h : in_range row col) :
    set_piece (set_piece b row col p) row col (get_piece b row col) = b := by
  unfold get_piece set_piece board_set
  rw [dif_pos h, dif_pos h, dif_pos h]
  funext i j
  by_cases hij : i = ⟨row.toNat, by simp only [in_range] at h; omega⟩ ∧
      j = ⟨col.toNat, by simp only [in_range] at h; omega⟩
  · rw [if_pos hij, hij.1, hij.2]
  · rw [if_neg hij, if_neg hij]

lemma list_any_false {α : Type} (f : α → Bool) (l : List α)
    (h : ∀ a ∈ l, f a = false) : l.any f = false := by
  induction l with
  | nil => rfl
  | cons x xs ih =>
    simp only [List.any_cons, Bool.or_eq_false_iff]
    exact ⟨h x (List.mem_cons_self x xs), ih fun a ha => h a (List.mem_cons_of_mem x ha)⟩

lemma list_findSome?_none {α β : Type} (f : α → Option β) (l : List α)
    (h : ∀ a ∈ l, f a = none) : l.findSome? f = none := by
  induction l with
  | nil => rfl
  | cons x xs ih =>
    rw [List.findSome?_cons, h x (List.mem_cons_self x xs)]
    exact ih fun a ha => h a (List.mem_cons_of_mem x ha)

lemma mem_squares8 {q : Int × Int} (h : q ∈ squares8) :
    ∃ (r c : Nat), r < 8 ∧ c < 8 ∧ q = ((r : Int), (c : Int)) := by
  rcases List.mem_flatMap.mp h with ⟨r, hr, hq⟩
  rcases List.mem_map.mp hq with ⟨c, hc, hqc⟩
  exact ⟨r, c, List.mem_range.mp hr, List.mem_range.mp hc, hqc.symm⟩

lemma can_attack_square_false (s : ChessBoard) (fr fc tr tc : Int) :
    can_attack_square s fr fc tr tc = false := by
  unfold can_attack_square
  cases hg : get_piece s.board fr fc with
  | none => rfl
  | some p =>
    have hin := get_piece_some_in_range hg
    unfold is_valid_move_internal
    have hcleared : get_piece (set_piece s.board fr fc none) fr fc = none :=
      get_set_same s.board fr fc none hin
    simp only [hcleared]

lemma is_square_attacked_false (s : ChessBoard) (row col : Int) (color : Color) :
    is_square_attacked s row col color = false := by
  unfold is_square_attacked
  apply list_any_false
  intro q _
  cases hg : get_piece s.board q.1 q.2 with
  | none => rfl
  | some p => simp [can_attack_square_false]

lemma is_in_check_false (s : ChessBoard) (color : Color) :
    is_in_check s color = false := by
  unfold is_in_check
  cases get_king_position s.board color with
  | none => rfl
  | some q => exact is_square_attacked_false s q.1 q.2 color

/-- C1: the claim states that in the check fixture (White king at row 4,
col 4, Black queen at row 4, col 0, intervening squares empty)
`is_in_check(White)` is true, and that `is_square_attacked` reports a
square attacked whenever some piece of the attacking color can reach it.
The code contradicts this: `can_attack_square` clears the `from` square
and then runs `_is_valid_move_internal` from that now-empty square, whose
first guard (`if not piece`) fails, so every attack query returns false,
`is_square_attacked` never reports an attack, and `is_in_check` is false
on every state — in particular on the fixture, where the test of the
source itself, `test_check_detection`, expects true.  (Additionally
`is_in_check` passes the own color of the king, not the opposing color,
to the attack scan.) -/
theorem check_detection_broken :
    is_in_check check_fixture Color.WHITE = false ∧
    (∀ s color, is_in_check s color = false) ∧
    (∀ s row col color, is_square_attacked s row col color = false) ∧
    (∀ s fr fc tr tc, can_attack_square s fr fc tr tc = false) :=
  ⟨is_in_check_false check_fixture Color.WHITE, is_in_check_false,
   is_square_attacked_false, can_attack_square_false⟩

/-- C2: the claim states a pawn double step is accepted only when the
intermediate square and the destination are both empty.  The code checks
only the destination (`_is_valid_pawn_move` line 190 has no test of the
intermediate square), so with a Black knight standing on the intermediate
square (row 5, col 0) the double step (6,0) → (4,0) is still accepted. -/
theorem pawn_double_step_jumps_blocker :
    get_piece pawn_jump_fixture.board 5 0 = some bN ∧
    get_piece pawn_jump_fixture.board 6 0 = some wP ∧
    is_valid_move pawn_jump_fixture 6 0 4 0 = true := by decide

/-- C3: the claim states a king move with two columns of travel is
accepted only when the row is unchanged and the corner rook has the
same color as the king (among other conditions).  `_is_valid_castling`
never inspects `to_row` and never inspects the color of the rook, so the move
(7,4) → (5,6) — two rows up — is accepted in a legal castling position,
and kingside castling is accepted with a BLACK rook on h1. -/
theorem castling_ignores_row_and_rook_color :
    is_valid_move castle_fixture 7 4 5 6 = true ∧
    get_piece castle_enemy_rook_fixture.board 7 7 = some bR ∧
    is_valid_move castle_enemy_rook_fixture 7 4 7 6 = true := by decide

/-- C4: the claim states that out-of-range coordinates make
`is_valid_move` and `make_move` return false and leave the state
unchanged.  A `from` square outside the board is indeed rejected, but an
out-of-range `to` square can pass every shape check: a lone White king at
(0,0) may "move" to (0,-1); `set_piece` silently drops the out-of-range
write, the king vanishes from the board, the turn flips and `make_move`
returns true. -/
theorem out_of_range_move_accepted :
    is_valid_move corner_king_fixture 0 0 0 (-1) = true ∧
    (make_move corner_king_fixture 0 0 0 (-1)).1 = true ∧
    get_piece (make_move corner_king_fixture 0 0 0 (-1)).2.board 0 0 = none ∧
    (make_move corner_king_fixture 0 0 0 (-1)).2.current_turn = Color.BLACK ∧
    (make_move corner_king_fixture 0 0 0 (-1)).2.move_history.length = 1 := by decide

/-- C5: whenever `make_move` returns false it has rejected the move
before any mutation, so board, turn, en-passant target and history are
exactly the values of the input state. -/
theorem make_move_rejected_leaves_state (s : ChessBoard) (fr fc tr tc : Int)
    (h : (make_move s fr fc tr tc).1 = false) :
    (make_move s fr fc tr tc).2.board = s.board ∧
    (make_move s fr fc tr tc).2.current_turn = s.current_turn ∧
    (make_move s fr fc tr tc).2.en_passant_target = s.en_passant_target ∧
    (make_move s fr fc tr tc).2.move_history = s.move_history := by
  by_cases hv : is_valid_move s fr fc tr tc = true
  · exfalso
    unfold make_move at h
    rw [if_pos hv] at h
    simp at h
  · unfold make_move
    rw [if_neg hv]
    exact ⟨rfl, rfl, rfl, rfl⟩

/-- Witness for C5: moving the Black pawn on (1,0) while White is to move is
rejected and the initial state is returned unchanged. -/
theorem make_move_rejected_leaves_state_witness :
    (make_move initial_state 1 0 2 0).1 = false ∧
    ((make_move initial_state 1 0 2 0).2.board = initial_state.board ∧
     (make_move initial_state 1 0 2 0).2.current_turn = initial_state.current_turn ∧
     (make_move initial_state 1 0 2 0).2.en_passant_target = initial_state.en_passant_target ∧
     (make_move initial_state 1 0 2 0).2.move_history = initial_state.move_history) :=
  ⟨by decide, make_move_rejected_leaves_state initial_state 1 0 2 0 (by decide)⟩

/-- C9: when no king of the queried color is on the board,
`get_king_position` finds nothing (the `ValueError` of the source) and
`is_in_check` returns false rather than an error. -/
theorem is_in_check_no_king (s : ChessBoard) (color : Color)
    (h : ∀ r c : Fin 8, ((s.board r c).all
        fun p => !(decide (p.piece_type = PieceType.KING ∧ p.color = color))) = true) :
    is_in_check s color = false := by
  have hk : get_king_position s.board color = none := by
    apply list_findSome?_none
    intro q hq
    obtain ⟨r, c, hr, hc, rfl⟩ := mem_squares8 hq
    simp only [get_king_position]
    rw [get_piece_nat s.board r c hr hc]
    have hall := h ⟨r, hr⟩ ⟨c, hc⟩
    cases hb : s.board ⟨r, hr⟩ ⟨c, hc⟩ with
    | none => rfl
    | some p =>
      rw [hb] at hall
      simp only [Option.all_some, Bool.not_eq_eq_eq_not, Bool.not_true,
        decide_eq_false_iff_not] at hall
      simp only [if_neg hall]
  unfold is_in_check
  rw [hk]

/-- Witness for C9: a board holding only a White pawn has no White king,
and `is_in_check` for White is false. -/
theorem is_in_check_no_king_witness :
    is_in_check lone_pawn_fixture Color.WHITE = false :=
  is_in_check_no_king lone_pawn_fixture Color.WHITE (by decide)

/-- C10: `get_piece` with any coordinate outside [0,7] returns `none`,
and `set_piece` with such coordinates is a no-op on the grid. -/
theorem get_set_piece_out_of_range (b : Board) (row col : Int)
    (h : ¬ in_range row col) :
    get_piece b row col = none ∧ ∀ p : Option Piece, set_piece b row col p = b :=
  ⟨get_piece_out_of_range b row col h,
   fun p => set_piece_out_of_range b row col p h⟩

/-- Witness for C10 at row -1, col 0 on the initial board. -/
theorem get_set_piece_out_of_range_witness :
    get_piece initial_board (-1) 0 = none ∧
    set_piece initial_board (-1) 0 (some wP) = initial_board :=
  ⟨(get_set_piece_out_of_range initial_board (-1) 0 (by decide)).1,
   (get_set_piece_out_of_range initial_board (-1) 0 (by decide)).2 (some wP)⟩

lemma can_attack_square_st_restore (s : ChessBoard) (fr fc tr tc : Int) :
    (can_attack_square_st s fr fc tr tc).2 = s := by
  unfold can_attack_square_st
  cases hg : get_piece s.board fr fc with
  | none => rfl
  | some p =>
    have hin := get_piece_some_in_range hg
    have hres := set_set_restore s.board fr fc none hin
    rw [hg] at hres
    dsimp only
    rw [hres]

lemma can_attack_square_st_fst (s : ChessBoard) (fr fc tr tc : Int) :
    (can_attack_square_st s fr fc tr tc).1 = can_attack_square s fr fc tr tc := by
  unfold can_attack_square_st can_attack_square
  cases hg : get_piece s.board fr fc with
  | none => rfl
  | some p => rfl

lemma is_square_attacked_loop_spec (row col : Int) (color : Color)
    (l : List (Int × Int)) (s : ChessBoard) :
    (is_square_attacked_loop row col color s l).2 = s ∧
    (is_square_attacked_loop row col color s l).1 =
      l.any fun q =>
        match get_piece s.board q.1 q.2 with
        | some piece => decide (piece.color = color) && can_attack_square s q.1 q.2 row col
        | none => false := by
  induction l generalizing s with
  | nil => exact ⟨rfl, rfl⟩
  | cons q rest ih =>
    simp only [is_square_attacked_loop, List.any_cons]
    cases hg : get_piece s.board q.1 q.2 with
    | none =>
      simpa using ih s
    | some piece =>
      dsimp only
      by_cases hc : piece.color = color
      · rw [if_pos hc]
        by_cases hatt : can_attack_square s q.1 q.2 row col = true
        · rw [show (can_attack_square_st s q.1 q.2 row col).1 = true from
            (can_attack_square_st_fst s q.1 q.2 row col).trans hatt]
          simp [can_attack_square_st_restore, hc, hatt]
        · rw [show (can_attack_square_st s q.1 q.2 row col).1 = false from
            (can_attack_square_st_fst s q.1 q.2 row col).trans (Bool.eq_false_iff.mpr hatt)]
          simp only [Bool.false_eq_true, if_false, can_attack_square_st_restore]
          have := ih s
          simp only [this.1, this.2, true_and]
          simp [hatt, Bool.eq_false_iff.mpr hatt]
      · rw [if_neg hc]
        have := ih s
        simp [this.1, this.2, hc]

lemma is_square_attacked_st_restore (s : ChessBoard) (row col : Int) (color : Color) :
    (is_square_attacked_st s row col color).2 = s :=
  (is_square_attacked_loop_spec row col color squares8 s).1

lemma is_square_attacked_st_fst (s : ChessBoard) (row col : Int) (color : Color) :
    (is_square_attacked_st s row col color).1 = is_square_attacked s row col color :=
  (is_square_attacked_loop_spec row col color squares8 s).2

lemma is_in_check_st_restore (s : ChessBoard) (color : Color) :
    (is_in_check_st s color).2 = s := by
  unfold is_in_check_st
  cases get_king_position s.board color with
  | none => rfl
  | some q => exact is_square_attacked_st_restore s q.1 q.2 color

lemma is_in_check_st_fst (s : ChessBoard) (color : Color) :
    (is_in_check_st s color).1 = is_in_check s color := by
  unfold is_in_check_st is_in_check
  cases get_king_position s.board color with
  | none => rfl
  | some q => exact is_square_attacked_st_fst s q.1 q.2 color

/-- C6: `is_valid_move` is a pure query.  The state-threaded renderings
of the attack scan return the state of the caller unchanged: the temporary
clearing of the `from` square inside `can_attack_square` is exactly
undone by the restore, the scan loop therefore threads the original
state through every step, the speculative move of `is_valid_move` runs
only on a duplicate, and the threaded `is_valid_move` returns the
original state together with the same boolean as the pure function. -/
theorem is_valid_move_pure_query :
    (∀ s fr fc tr tc, (can_attack_square_st s fr fc tr tc).2 = s) ∧
    (∀ s row col color, (is_square_attacked_st s row col color).2 = s) ∧
    (∀ s color, (is_in_check_st s color).2 = s) ∧
    (∀ s fr fc tr tc, (is_valid_move_st s fr fc tr tc).2 = s ∧
      (is_valid_move_st s fr fc tr tc).1 = is_valid_move s fr fc tr tc) := by
  refine ⟨can_attack_square_st_restore, is_square_attacked_st_restore,
    is_in_check_st_restore, ?_⟩
  intro s fr fc tr tc
  unfold is_valid_move_st is_valid_move
  cases hg : get_piece s.board fr fc with
  | none => exact ⟨rfl, rfl⟩
  | some piece =>
    dsimp only
    by_cases hc : piece.color = s.current_turn
    · rw [if_pos hc]
      by_cases hint : is_valid_move_internal s fr fc tr tc = true
      · rw [if_pos hint]
        refine ⟨rfl, ?_⟩
        simp [hc, hint, is_in_check_st_fst]
      · rw [if_neg hint]
        refine ⟨rfl, ?_⟩
        simp [hc, Bool.eq_false_iff.mpr hint]
    · rw [if_neg hc]
      refine ⟨rfl, ?_⟩
      simp [hc]

lemma pawn_direction_cases (c : Color) :
    pawn_direction c = -1 ∨ pawn_direction c = 1 := by
  unfold pawn_direction
  by_cases h : c = Color.WHITE <;> simp [h]

lemma valid_move_parts {s : ChessBoard} {fr fc tr tc : Int} {piece : Piece}
    (hg : get_piece s.board fr fc = some piece)
    (hv : is_valid_move s fr fc tr tc = true) :
    piece.color = s.current_turn ∧ is_valid_move_internal s fr fc tr tc = true := by
  unfold is_valid_move at hv
  rw [hg] at hv
  simp only [Bool.and_eq_true, decide_eq_true_eq] at hv
  exact ⟨hv.1.1, hv.1.2⟩

lemma internal_pawn {s : ChessBoard} {fr fc tr tc : Int} {piece : Piece}
    (hg : get_piece s.board fr fc = some piece)
    (hpt : piece.piece_type = PieceType.PAWN)
    (hint : is_valid_move_internal s fr fc tr tc = true) :
    is_valid_pawn_move s fr fc tr tc = true := by
  unfold is_valid_move_internal at hint
  rw [hg] at hint
  simp only [Bool.and_eq_true] at hint
  have h3 := hint.2
  rw [hpt] at h3
  exact h3

lemma pawn_move_rows {s : ChessBoard} {fr fc tr tc : Int} {piece : Piece}
    (hg : get_piece s.board fr fc = some piece)
    (hp : is_valid_pawn_move s fr fc tr tc = true) :
    tr = fr + pawn_direction piece.color ∨
    (fc = tc ∧ fr = (if piece.color = Color.WHITE then (6 : Int) else 1) ∧
      tr = fr + 2 * pawn_direction piece.color) := by
  unfold is_valid_pawn_move at hp
  rw [hg] at hp
  simp only [Bool.or_eq_true, Bool.and_eq_true, decide_eq_true_eq] at hp
  rcases hp with ⟨⟨hfc, _⟩, hrow⟩ | ⟨⟨_, hrow⟩, _⟩
  · rcases hrow with h1 | ⟨hsr, h2⟩
    · exact Or.inl h1
    · exact Or.inr ⟨hfc, hsr, h2⟩
  · exact Or.inl hrow

/-- C7: after the executor applies a move good enough to have passed
validation, the en-passant target is the midpoint square when the moved
piece is a pawn advancing exactly two rows (necessarily along its own
column), and is cleared to `none` after every other move — including an
en-passant capture, which is a one-row diagonal move. -/
theorem en_passant_target_after_move (s : ChessBoard) (fr fc tr tc : Int)
    (piece : Piece)
    (hg : get_piece s.board fr fc = some piece)
    (hv : is_valid_move s fr fc tr tc = true) :
    (piece.piece_type = PieceType.PAWN ∧ tr = fr + 2 * pawn_direction piece.color →
      (make_move_internal s fr fc tr tc).en_passant_target =
        some (fr + pawn_direction piece.color, tc) ∧ fc = tc) ∧
    (¬ (piece.piece_type = PieceType.PAWN ∧ tr = fr + 2 * pawn_direction piece.color) →
      (make_move_internal s fr fc tr tc).en_passant_target = none) := by
  have hint := (valid_move_parts hg hv).2
  have hd := pawn_direction_cases piece.color
  constructor
  · rintro ⟨hpt, hadv⟩
    have hrows := pawn_move_rows hg (internal_pawn hg hpt hint)
    have hfc : fc = tc := by
      rcases hrows with h1 | ⟨hfc, _, _⟩
      · exfalso
        rcases hd with h | h <;> omega
      · exact hfc
    refine ⟨?_, hfc⟩
    unfold make_move_internal
    rw [hg]
    dsimp only
    have hcond : (decide (piece.piece_type = PieceType.PAWN) &&
        decide ((tr - fr).natAbs = 2)) = true := by
      simp only [Bool.and_eq_true, decide_eq_true_eq]
      exact ⟨hpt, by rcases hd with h | h <;> omega⟩
    rw [if_pos hcond]
    have hmid : Int.fdiv (tr + fr) 2 = fr + pawn_direction piece.color := by
      rw [show tr + fr = 2 * (fr + pawn_direction piece.color) by omega,
        Int.fdiv_eq_ediv _ (by norm_num)]
      omega
    rw [hmid]
  · intro hn
    unfold make_move_internal
    rw [hg]
    dsimp only
    have hcond : (decide (piece.piece_type = PieceType.PAWN) &&
        decide ((tr - fr).natAbs = 2)) = false := by
      by_cases hpt : piece.piece_type = PieceType.PAWN
      · have hrows := pawn_move_rows hg (internal_pawn hg hpt hint)
        have hnadv : ¬ tr = fr + 2 * pawn_direction piece.color :=
          fun h => hn ⟨hpt, h⟩
        have : (tr - fr).natAbs ≠ 2 := by
          rcases hrows with h1 | ⟨_, _, h2⟩
          · rcases hd with h | h <;> omega
          · exact absurd h2 hnadv
        simp [this]
      · simp [hpt]
    rw [hcond, if_neg Bool.false_ne_true]

/-- Witness for C7: the double step (6,0) → (4,0) of a lone White pawn
sets the en-passant target to the midpoint (5,0). -/
theorem en_passant_target_after_move_witness :
    (make_move_internal lone_pawn_fixture 6 0 4 0).en_passant_target = some (5, 0) ∧
    (0 : Int) = 0 :=
  (en_passant_target_after_move lone_pawn_fixture 6 0 4 0 wP (by decide)
    (by decide)).1 (by decide)

/-- C8: when the executor applies a pawn move onto the current en-passant
target, the square one rank behind the destination toward the own side
of the mover (row `to+1` for White, `to-1` for Black) is cleared, and the
destination square itself ends up holding the moving pawn (with its
`has_moved` flag set), not cleared. -/
theorem en_passant_capture_removes_bypassed_pawn (s : ChessBoard)
    (fr fc tr tc : Int) (piece : Piece)
    (hg : get_piece s.board fr fc = some piece)
    (hpt : piece.piece_type = PieceType.PAWN)
    (hep : s.en_passant_target = some (tr, tc))
    (hne : ¬ (fr = tr ∧ fc = tc))
    (hin : in_range tr tc) :
    get_piece (make_move_internal s fr fc tr tc).board
      (tr + (if piece.color = Color.WHITE then 1 else -1)) tc = none ∧
    get_piece (make_move_internal s fr fc tr tc).board tr tc =
      some { piece with has_moved := true } := by
  have hd : (if piece.color = Color.WHITE then (1 : Int) else -1) = 1 ∨
      (if piece.color = Color.WHITE then (1 : Int) else -1) = -1 := by
    by_cases h : piece.color = Color.WHITE <;> simp [h]
  unfold make_move_internal
  rw [hg]
  dsimp only
  have hepcond : (decide (piece.piece_type = PieceType.PAWN) &&
      decide (s.en_passant_target = some (tr, tc))) = true := by
    simp [hpt, hep]
  have hkcond : (decide (piece.piece_type = PieceType.KING) &&
      decide ((tc - fc).natAbs = 2)) = false := by
    simp [hpt]
  rw [if_pos hepcond, hkcond, if_neg Bool.false_ne_true]
  constructor
  · by_cases hfr : fr = tr + (if piece.color = Color.WHITE then (1 : Int) else -1) ∧ fc = tc
    · rw [← hfr.1, ← hfr.2]
      exact get_set_same _ _ _ _ (get_piece_some_in_range hg)
    · rw [get_set_other _ _ _ _ _ _ hfr]
      have hne2 : ¬ (tr = tr + (if piece.color = Color.WHITE then (1 : Int) else -1) ∧
          tc = tc) := by
        rintro ⟨habs, -⟩
        rcases hd with h | h <;> rw [h] at habs <;> omega
      rw [get_set_other _ _ _ _ _ _ hne2]
      by_cases hinr : in_range (tr + (if piece.color = Color.WHITE then (1 : Int) else -1)) tc
      · exact get_set_same _ _ _ _ hinr
      · exact get_piece_out_of_range _ _ _ hinr
  · rw [get_set_other _ _ _ _ _ _ hne]
    exact get_set_same _ _ _ _ hin

/-- Witness for C8: capturing en passant with the White pawn from (3,4)
onto the target (2,3) removes the Black pawn on (3,3) and leaves the
White pawn on (2,3). -/
theorem en_passant_capture_removes_bypassed_pawn_witness :
    get_piece (make_move_internal ep_fixture 3 4 2 3).board 3 3 = none ∧
    get_piece (make_move_internal ep_fixture 3 4 2 3).board 2 3 =
      some { wP with has_moved := true } :=
  en_passant_capture_removes_bypassed_pawn ep_fixture 3 4 2 3 wP
    (by decide) (by decide) (by decide) (by decide) (by decide)

end Chess
